import Mathlib

/-!
Shallow embedding of `resu` (`src/resu/resu.py`), a checkpoint/resume engine
for batch processing.  The `Checkpoint` class keeps an input collection, a
checkpoint file path and an in-memory progress list of markers; `check_progress`
plans the remaining work, `record` runs a callback over it with periodic and
final checkpoint flushes.

Modelling conventions:
* Python values passed as items are modelled by the inductive `PyVal`,
  restricted to the shapes the claims exercise (ints, bools, strings, bytes,
  lists, and int-keyed/int-valued dicts kept in insertion order, as Python
  dicts are).
* `pickle.dumps` is modelled by `pickleDumps`, a deterministic tagged byte
  encoding.  It reproduces the facts about the real pickle that the claims
  depend on: the output is a pure function of the constructed value, `True`
  and `1` serialize differently, and dict entries are serialized in insertion
  order.  `base64.b64encode` is modelled by `b64encode`, an injective
  deterministic byte-to-byte map.
* The filesystem is an association list from paths to raw byte contents;
  `gzip` is modelled as an invertible framing with the real gzip magic bytes,
  and `pickle.dump`/`pickle.load` of the progress list as the invertible
  `serializeMarkers`/`deserializeMarkers` pair (a failed decode models
  `pickle`'s/`gzip`'s exceptions on corrupt files).
* Stateful methods become functions returning the new state together with the
  observable effects (work set, printed skip count, checkpoint writes,
  callback invocation count).  A fallible callback is an `Except`-valued
  function; a raised exception is the `.error` case and propagates as in the
  source (no `try` around the loop body).
* `tqdm` display and the `SIGINT` handler are presentation/signal concerns
  without bearing on the claims below and are not modelled; `read_data`
  (loading the input collection from a file path) is an out-of-scope external
  collaborator per the spec, so the model takes the in-memory collection.
-/

namespace Resu

/-- Model of the Python values used as items: ints, bools, strings, bytes,
lists, and dicts with int keys and int values kept as insertion-ordered
association lists (Python dict literals have unique keys). -/
inductive PyVal where
  | int : Int → PyVal
  | bool : Bool → PyVal
  | str : String → PyVal
  | bytes : List Nat → PyVal
  | list : List PyVal → PyVal
  | dictII : List (Int × Int) → PyVal

mutual

/-- Decidable equality of constructed values (the equality `pickle` respects,
strictly finer than Python `==`). -/
def pyValDecEq : (a b : PyVal) → Decidable (a = b)
  | .int m, .int n =>
      match decEq m n with
      | .isTrue h => .isTrue (by rw [h])
      | .isFalse h => .isFalse (by intro hc; cases hc; exact h rfl)
  | .bool a, .bool b =>
      match decEq a b with
      | .isTrue h => .isTrue (by rw [h])
      | .isFalse h => .isFalse (by intro hc; cases hc; exact h rfl)
  | .str a, .str b =>
      match decEq a b with
      | .isTrue h => .isTrue (by rw [h])
      | .isFalse h => .isFalse (by intro hc; cases hc; exact h rfl)
  | .bytes a, .bytes b =>
      match decEq a b with
      | .isTrue h => .isTrue (by rw [h])
      | .isFalse h => .isFalse (by intro hc; cases hc; exact h rfl)
  | .dictII a, .dictII b =>
      match decEq a b with
      | .isTrue h => .isTrue (by rw [h])
      | .isFalse h => .isFalse (by intro hc; cases hc; exact h rfl)
  | .list xs, .list ys =>
      match pyValDecEqList xs ys with
      | .isTrue h => .isTrue (by rw [h])
      | .isFalse h => .isFalse (by intro hc; cases hc; exact h rfl)
  | .int _, .bool _ => .isFalse (by intro hc; cases hc)
  | .int _, .str _ => .isFalse (by intro hc; cases hc)
  | .int _, .bytes _ => .isFalse (by intro hc; cases hc)
  | .int _, .list _ => .isFalse (by intro hc; cases hc)
  | .int _, .dictII _ => .isFalse (by intro hc; cases hc)
  | .bool _, .int _ => .isFalse (by intro hc; cases hc)
  | .bool _, .str _ => .isFalse (by intro hc; cases hc)
  | .bool _, .bytes _ => .isFalse (by intro hc; cases hc)
  | .bool _, .list _ => .isFalse (by intro hc; cases hc)
  | .bool _, .dictII _ => .isFalse (by intro hc; cases hc)
  | .str _, .int _ => .isFalse (by intro hc; cases hc)
  | .str _, .bool _ => .isFalse (by intro hc; cases hc)
  | .str _, .bytes _ => .isFalse (by intro hc; cases hc)
  | .str _, .list _ => .isFalse (by intro hc; cases hc)
  | .str _, .dictII _ => .isFalse (by intro hc; cases hc)
  | .bytes _, .int _ => .isFalse (by intro hc; cases hc)
  | .bytes _, .bool _ => .isFalse (by intro hc; cases hc)
  | .bytes _, .str _ => .isFalse (by intro hc; cases hc)
  | .bytes _, .list _ => .isFalse (by intro hc; cases hc)
  | .bytes _, .dictII _ => .isFalse (by intro hc; cases hc)
  | .list _, .int _ => .isFalse (by intro hc; cases hc)
  | .list _, .bool _ => .isFalse (by intro hc; cases hc)
  | .list _, .str _ => .isFalse (by intro hc; cases hc)
  | .list _, .bytes _ => .isFalse (by intro hc; cases hc)
  | .list _, .dictII _ => .isFalse (by intro hc; cases hc)
  | .dictII _, .int _ => .isFalse (by intro hc; cases hc)
  | .dictII _, .bool _ => .isFalse (by intro hc; cases hc)
  | .dictII _, .str _ => .isFalse (by intro hc; cases hc)
  | .dictII _, .bytes _ => .isFalse (by intro hc; cases hc)
  | .dictII _, .list _ => .isFalse (by intro hc; cases hc)

/-- Decidable equality of lists of values. -/
def pyValDecEqList : (xs ys : List PyVal) → Decidable (xs = ys)
  | [], [] => .isTrue rfl
  | [], _ :: _ => .isFalse (by intro hc; cases hc)
  | _ :: _, [] => .isFalse (by intro hc; cases hc)
  | x :: xs, y :: ys =>
      match pyValDecEq x y, pyValDecEqList xs ys with
      | .isTrue h1, .isTrue h2 => .isTrue (by rw [h1, h2])
      | .isFalse h1, _ => .isFalse (by intro hc; cases hc; exact h1 rfl)
      | _, .isFalse h2 => .isFalse (by intro hc; cases hc; exact h2 rfl)

end

instance : DecidableEq PyVal := pyValDecEq

/-- Python coerces `True`/`False` to `1`/`0` when comparing with ints. -/
def boolToInt (b : Bool) : Int := if b then 1 else 0

/-- First-match lookup in an insertion-ordered dict. -/
def dictLookup (d : List (Int × Int)) (k : Int) : Option Int :=
  match d with
  | [] => none
  | (k', v) :: rest => if k' == k then some v else dictLookup rest k

/-- Python `==` on dicts: equal as finite maps, insertion order ignored. -/
def sameMap (d1 d2 : List (Int × Int)) : Bool :=
  d1.all (fun kv => dictLookup d2 kv.1 == some kv.2) &&
  d2.all (fun kv => dictLookup d1 kv.1 == some kv.2)

mutual

/-- Python structural equality `==` on modelled values: numeric equality
identifies `True` with `1` and `False` with `0`; lists compare pointwise;
dicts compare as finite maps regardless of insertion order. -/
def pyEq : PyVal → PyVal → Bool
  | .int m, .int n => m == n
  | .int m, .bool b => m == boolToInt b
  | .bool b, .int n => boolToInt b == n
  | .bool a, .bool b => a == b
  | .str a, .str b => a == b
  | .bytes a, .bytes b => a == b
  | .list xs, .list ys => pyEqList xs ys
  | .dictII d1, .dictII d2 => sameMap d1 d2
  | _, _ => false

/-- Pointwise Python `==` on lists. -/
def pyEqList : List PyVal → List PyVal → Bool
  | [], [] => true
  | x :: xs, y :: ys => pyEq x y && pyEqList xs ys
  | _, _ => false

end

/-- Fixed-width model encoding of an integer payload: sign byte then
magnitude. -/
def intBytes (n : Int) : List Nat :=
  if n < 0 then [1, (-n).toNat] else [0, n.toNat]

mutual

/-- Model of `pickle.dumps`: a deterministic tagged byte encoding.  The model
keeps the properties of the real pickle that matter here: the output depends
only on the constructed value, booleans and ints carry distinct tags (so
`pickle.dumps(True) != pickle.dumps(1)`), and dict entries are emitted in
insertion order (real pickle serializes dicts in iteration order). -/
def pickleDumps : PyVal → List Nat
  | .int n => 1 :: intBytes n
  | .bool b => [2, if b then 1 else 0]
  | .str s => 3 :: s.length :: (s.toList.map Char.toNat)
  | .bytes bs => 4 :: bs.length :: bs
  | .list xs => 5 :: xs.length :: pickleList xs
  | .dictII d => 6 :: d.length ::
      (d.map (fun kv => intBytes kv.1 ++ intBytes kv.2)).flatten

/-- Concatenated pickles of the elements of a list. -/
def pickleList : List PyVal → List Nat
  | [] => []
  | x :: xs => pickleDumps x ++ pickleList xs

end

/-- Model of `base64.b64encode` as an injective, deterministic byte-to-byte
map into a printable alphabet; the development depends only on determinism
and injectivity of the real base64, not on its exact output. -/
def b64encode (bs : List Nat) : List Nat := bs.map (fun b => b + 65)

/-- A done-marker: the byte string `base64.b64encode(pickle.dumps(x))`. -/
abbrev Marker := List Nat

/-- `Checkpoint._encode` (src/resu/resu.py:78-80): the marker of an item. -/
def _encode (x : PyVal) : Marker := b64encode (pickleDumps x)

/-- The filesystem: association list from paths to raw file bytes. -/
abbrev FS := List (String × List Nat)

/-- Read a file's raw bytes, `none` when the path does not exist. -/
def fsLookup (fs : FS) (p : String) : Option (List Nat) :=
  match fs with
  | [] => none
  | (q, bs) :: rest => if q = p then some bs else fsLookup rest p

/-- Create or wholesale-overwrite a file. -/
def fsWrite (fs : FS) (p : String) (bs : List Nat) : FS :=
  match fs with
  | [] => [(p, bs)]
  | (q, old) :: rest =>
      if q = p then (p, bs) :: rest else (q, old) :: fsWrite rest p bs

/-- Model of gzip compression: invertible framing behind the real gzip magic
bytes `0x1f 0x8b`; decompression rejects anything not so framed. -/
def gzipCompress (bs : List Nat) : List Nat := 31 :: 139 :: bs

/-- Model of gzip decompression; `none` models the exception raised on
content that is not gzip data (e.g. the empty placeholder file). -/
def gzipDecompress (bs : List Nat) : Option (List Nat) :=
  match bs with
  | 31 :: 139 :: rest => some rest
  | _ => none

/-- Length-prefixed flattening of a marker list. -/
def markerSegs : List Marker → List Nat
  | [] => []
  | m :: rest => m.length :: (m ++ markerSegs rest)

/-- Model of `pickle.dump` applied to the progress list: a count followed by
length-prefixed marker payloads. -/
def serializeMarkers (L : List Marker) : List Nat :=
  L.length :: markerSegs L

/-- Read back `k` length-prefixed markers, rejecting truncated or trailing
bytes. -/
def readMarkers : Nat → List Nat → Option (List Marker)
  | 0, rest => if rest.isEmpty then some [] else none
  | _ + 1, [] => none
  | k + 1, len :: rest =>
      if len ≤ rest.length then
        (readMarkers k (rest.drop len)).map (fun ms => rest.take len :: ms)
      else none

/-- Model of `pickle.load` on a checkpoint payload; `none` models the
exception on corrupt data. -/
def deserializeMarkers (bs : List Nat) : Option (List Marker) :=
  match bs with
  | [] => none
  | count :: rest => readMarkers count rest

/-- `Checkpoint.ckpt_io(mode='write')` (src/resu/resu.py:38-40): pickle the
progress list, gzip it, and overwrite the checkpoint path. -/
def ckpt_io_write (path : String) (progress : List Marker) (fs : FS) : FS :=
  fsWrite fs path (gzipCompress (serializeMarkers progress))

/-- `Checkpoint.ckpt_io(mode='read')` (src/resu/resu.py:41-44): read the
checkpoint path, gunzip and unpickle; `none` models the exceptions on a
missing or undecodable file. -/
def ckpt_io_read (path : String) (fs : FS) : Option (List Marker) :=
  match fsLookup fs path with
  | none => none
  | some raw =>
      match gzipDecompress raw with
      | none => none
      | some payload => deserializeMarkers payload

/-- The `Checkpoint` object's state (src/resu/resu.py:24-29): the input
collection, the optional checkpoint path (`None` unset), and the in-memory
progress list of markers. -/
structure Checkpoint where
  input_data : List PyVal
  ckpt_file : Option String
  progress : List Marker
deriving DecidableEq

/-- Exceptions raised on the checkpoint-planning path: `fileNotFound` models
the `FileNotFoundError` of src/resu/resu.py:94-95, `corrupt` the gzip/pickle
exceptions on an unreadable checkpoint file. -/
inductive CkptErr where
  | fileNotFound
  | corrupt
deriving DecidableEq

/-- Observable outcome of `check_progress`: the computed work set, the skip
count it prints, the (now definitely set) checkpoint path, and the updated
object and filesystem state. -/
structure PlanOut where
  workSet : List PyVal
  skipped : Nat
  path : String
  c : Checkpoint
  fs : FS
deriving DecidableEq

/-- `Checkpoint.check_progress` (src/resu/resu.py:82-103).  With no
checkpoint path it generates `"{timestamp}.ckpt"` and touches it (creating an
empty file).  With a set path it requires the file to exist, reads the stored
done-list and appends `_encode(x)` of every loaded entry `x` to the progress
list — note the loaded entries are themselves markers (bytes), so this is a
re-encoding, exactly as the source does at lines 89-90.  It then filters the
input, keeping the items whose marker is not in the progress list. -/
def check_progress (c : Checkpoint) (fs : FS) (now : Nat) :
    Except CkptErr PlanOut :=
  match c.ckpt_file with
  | none =>
      let path := toString now ++ ".ckpt"
      let c' : Checkpoint := { c with ckpt_file := some path }
      let fs' := fsWrite fs path []
      let ws := c.input_data.filter
        (fun x => !(c.progress.contains (_encode x)))
      .ok ⟨ws, 0, path, c', fs'⟩
  | some path =>
      match fsLookup fs path with
      | none => .error .fileNotFound
      | some raw =>
          match gzipDecompress raw with
          | none => .error .corrupt
          | some payload =>
              match deserializeMarkers payload with
              | none => .error .corrupt
              | some data =>
                  let c' : Checkpoint :=
                    { c with progress :=
                        c.progress ++ data.map (fun m => _encode (.bytes m)) }
                  let ws := c.input_data.filter
                    (fun x => !(c'.progress.contains (_encode x)))
                  .ok ⟨ws, data.length, path, c', fs⟩

/-- Observable outcome of the execution loop: final progress list, collected
results, number of callback invocations, the checkpoint snapshots written (in
order), the filesystem after those writes, and the propagated callback error
if the loop aborted. -/
structure LoopOut (E : Type) where
  progress : List Marker
  results : List PyVal
  calls : Nat
  writes : List (List Marker)
  fs : FS
  err : Option E
deriving DecidableEq

/-- The `for` loop of `Checkpoint.record` (src/resu/resu.py:125-134).
`n` is the 1-based completion count (the source's `enumerate` index plus the
in-loop `n += 1`), `ck` the current `checkpoint_every` threshold.  Per item:
invoke the callback (a raised error aborts the loop and propagates, the
item's marker not yet appended), append the item's marker, and when the count
reaches the threshold write a snapshot and double the threshold. -/
def recordLoop {E : Type} (f : PyVal → Except E PyVal) (path : String) :
    List PyVal → List Marker → Nat → Nat → FS → LoopOut E
  | [], progress, _, _, fs => ⟨progress, [], 0, [], fs, none⟩
  | item :: rest, progress, n, ck, fs =>
      match f item with
      | .error e => ⟨progress, [], 1, [], fs, some e⟩
      | .ok r =>
          let progress' := progress ++ [_encode item]
          let n' := n + 1
          if n' = ck then
            let fs' := ckpt_io_write path progress' fs
            let o := recordLoop f path rest progress' n' (ck + ck) fs'
            ⟨o.progress, r :: o.results, o.calls + 1,
              progress' :: o.writes, o.fs, o.err⟩
          else
            let o := recordLoop f path rest progress' n' ck fs
            ⟨o.progress, r :: o.results, o.calls + 1, o.writes, o.fs, o.err⟩

/-- An error propagating out of `record`: either one raised while planning
from the checkpoint, or one raised by the user callback. -/
inductive RunErr (E : Type) where
  | ckpt : CkptErr → RunErr E
  | cb : E → RunErr E
deriving DecidableEq

/-- Observable outcome of `Checkpoint.record`: the Python return value
(`none` both for the early `return` on empty work set and when an exception
propagates), the propagated error if any, the callback invocation count, the
checkpoint snapshots written, and the final object and filesystem state. -/
structure RecordOut (E : Type) where
  ret : Option (List PyVal)
  err : Option (RunErr E)
  calls : Nat
  writes : List (List Marker)
  c : Checkpoint
  fs : FS
deriving DecidableEq

/-- `Checkpoint.record` (src/resu/resu.py:105-137): plan via
`check_progress` (errors propagate before any callback or write); return
nothing on an empty work set; otherwise run the loop and, when it completes
without error, perform the final unconditional write. -/
def record {E : Type} (c : Checkpoint) (fs : FS) (now : Nat)
    (f : PyVal → Except E PyVal) (checkpoint_every : Nat) : RecordOut E :=
  match check_progress c fs now with
  | .error e => ⟨none, some (.ckpt e), 0, [], c, fs⟩
  | .ok plan =>
      if plan.workSet = [] then
        ⟨none, none, 0, [], plan.c, plan.fs⟩
      else
        let o := recordLoop f plan.path plan.workSet plan.c.progress 0
          checkpoint_every plan.fs
        match o.err with
        | some e =>
            ⟨none, some (.cb e), o.calls, o.writes,
              { plan.c with progress := o.progress }, o.fs⟩
        | none =>
            ⟨some o.results, none, o.calls, o.writes ++ [o.progress],
              { plan.c with progress := o.progress },
              ckpt_io_write plan.path o.progress o.fs⟩

/-- Did the callback return normally? -/
def okB {E α : Type} : Except E α → Bool
  | .ok _ => true
  | .error _ => false

mutual

/-- The canonical fragment of the value universe: ints, strings, bytes and
lists thereof.  On this fragment Python `==` coincides with equality of
constructed values; outside it (`bool` mixed with `int`, dicts compared
regardless of insertion order) Python `==` is strictly coarser than what
`pickle` serializes. -/
def canonical : PyVal → Bool
  | .int _ => true
  | .str _ => true
  | .bytes _ => true
  | .list xs => canonicalList xs
  | .bool _ => false
  | .dictII _ => false

/-- Every element of the list is canonical. -/
def canonicalList : List PyVal → Bool
  | [] => true
  | x :: xs => canonical x && canonicalList xs

end

/-- The cumulative completion counts at which the loop's doubling threshold
fires: `ck, 2*ck, 4*ck, …` as long as they do not exceed `M`. -/
def geoCounts (ck M : Nat) : List Nat :=
  if _h : 1 ≤ ck ∧ ck ≤ M then ck :: geoCounts (ck + ck) M else []
termination_by M + 1 - ck
decreasing_by omega

/-- A callback that always succeeds, returning the item unchanged. -/
def cbOk : PyVal → Except Unit PyVal := fun x => .ok x

/-- A callback that raises on the item `2` and succeeds elsewhere. -/
def cbFailOn2 : PyVal → Except Unit PyVal :=
  fun x => if pyEq x (.int 2) then .error () else .ok x

/-- The callback of the spec's example scenario: multiply the item by ten. -/
def times10 : PyVal → Except Unit PyVal :=
  fun x => match x with
  | .int n => .ok (.int (10 * n))
  | v => .ok v

theorem fsLookup_fsWrite (fs : FS) (p : String) (bs : List Nat) :
    fsLookup (fsWrite fs p bs) p = some bs := by
  induction fs with
  | nil => simp [fsWrite, fsLookup]
  | cons hd t ih =>
      obtain ⟨q, old⟩ := hd
      by_cases hq : q = p
      · simp [fsWrite, hq, fsLookup]
      · simp [fsWrite, hq, fsLookup, ih]

theorem readMarkers_markerSegs (L : List Marker) :
    readMarkers L.length (markerSegs L) = some L := by
  induction L with
  | nil => rfl
  | cons m rest ih =>
      simp only [markerSegs, List.length_cons, readMarkers]
      rw [if_pos (by simp [List.length_append])]
      rw [List.drop_left, List.take_left, ih]
      rfl

/-- C7.  Checkpoint round-trip: writing any done-list through the checkpoint
store (pickle, gzip, whole-file overwrite) and reading the same path back
returns exactly that list, the empty list included. -/
theorem ckpt_io_roundtrip (L : List Marker) (path : String) (fs : FS) :
    ckpt_io_read path (ckpt_io_write path L fs) = some L := by
  unfold ckpt_io_read ckpt_io_write
  rw [fsLookup_fsWrite]
  show (match gzipDecompress (gzipCompress (serializeMarkers L)) with
    | none => none
    | some payload => deserializeMarkers payload) = some L
  have hg : gzipDecompress (gzipCompress (serializeMarkers L))
      = some (serializeMarkers L) := rfl
  rw [hg]
  show deserializeMarkers (L.length :: markerSegs L) = some L
  exact readMarkers_markerSegs L

/-- C1 (code bug).  With input `[1, 2]` and a checkpoint written by a prior
run that completed item `1` (so `S = {marker(1)}`), `check_progress` loads
the entry but re-encodes it (`_encode` of the stored marker bytes), so the
exclusion set never matches any input marker: the returned work set is the
full input `[1, 2]`, not `input - S = [2]`, even though the skipped count it
reports is `|S| = 1`. -/
theorem check_progress_reencodes_loaded_markers :
    Except.map PlanOut.workSet
        (check_progress ⟨[.int 1, .int 2], some "p", []⟩
          (ckpt_io_write "p" [_encode (.int 1)] []) 0)
      = .ok [.int 1, .int 2]
    ∧ Except.map PlanOut.skipped
        (check_progress ⟨[.int 1, .int 2], some "p", []⟩
          (ckpt_io_write "p" [_encode (.int 1)] []) 0)
      = .ok 1
    ∧ ([PyVal.int 1, PyVal.int 2] : List PyVal) ≠ [PyVal.int 2] := by
  refine ⟨rfl, rfl, by decide⟩

/-- C2 (code bug).  With input `[1]` and a checkpoint holding the marker of
every input item (`S == input` as markers), `record` still invokes the
callback once, performs a flush-write, and returns results — because the
re-encoding in `check_progress` leaves the work set equal to the full input
instead of empty. -/
theorem record_full_completion_not_noop :
    (record ⟨[.int 1], some "p", []⟩ (ckpt_io_write "p" [_encode (.int 1)] [])
        0 cbOk 100).calls = 1
    ∧ (record ⟨[.int 1], some "p", []⟩ (ckpt_io_write "p" [_encode (.int 1)] [])
        0 cbOk 100).writes ≠ []
    ∧ (record ⟨[.int 1], some "p", []⟩ (ckpt_io_write "p" [_encode (.int 1)] [])
        0 cbOk 100).ret ≠ none := by
  refine ⟨rfl, by decide, by decide⟩

/-- C4.  The spec's example scenario: input `[1,2,3,4,5]`, no prior
checkpoint, `flushInterval = 2`, callback `item * 10`.  Results are
`[10,20,30,40,50]`; the checkpoint snapshots written are exactly the markers
of the first two items (periodic flush after item 2), the first four
(periodic flush after item 4), and all five (final unconditional flush after
item 5); the final checkpoint file reads back as the markers of all five
items. -/
theorem record_example_scenario :
    (record ⟨[.int 1, .int 2, .int 3, .int 4, .int 5], none, []⟩ [] 0
        times10 2).ret
      = some [.int 10, .int 20, .int 30, .int 40, .int 50]
    ∧ (record ⟨[.int 1, .int 2, .int 3, .int 4, .int 5], none, []⟩ [] 0
        times10 2).writes
      = [[PyVal.int 1, .int 2].map _encode,
         [PyVal.int 1, .int 2, .int 3, .int 4].map _encode,
         [PyVal.int 1, .int 2, .int 3, .int 4, .int 5].map _encode]
    ∧ ckpt_io_read "0.ckpt"
        (record ⟨[.int 1, .int 2, .int 3, .int 4, .int 5], none, []⟩ [] 0
          times10 2).fs
      = some ([PyVal.int 1, .int 2, .int 3, .int 4, .int 5].map _encode) := by
  refine ⟨rfl, rfl, rfl⟩

/-- C5 (counterexample).  With `flushInterval = 1` over five items, the
claim predicts the second periodic flush `2F = 2` items after the first,
i.e. snapshots of `1, 3` items plus a final snapshot of `5` — but the code
fires at cumulative counts `1, 2, 4` (the threshold doubles as a cumulative
target, not as an increment sequence `F, 2F, 4F`), so the snapshots written
have sizes `1, 2, 4, 5`. -/
theorem flush_cadence_counterexample :
    (record ⟨[.int 1, .int 2, .int 3, .int 4, .int 5], none, []⟩ [] 0
        cbOk 1).writes.map List.length = [1, 2, 4, 5]
    ∧ ([1, 2, 4, 5] : List Nat) ≠ [1, 3, 5] := by
  refine ⟨rfl, by decide⟩

/-- C6 (counterexample).  Two dicts with the same key-value mapping built in
different insertion orders are structurally equal in Python (`a == b`), yet
pickle serializes entries in insertion order, so their markers differ:
`encode(a) ≠ encode(b)`. -/
theorem encode_not_determined_by_pyEq :
    pyEq (.dictII [(1, 0), (2, 0)]) (.dictII [(2, 0), (1, 0)]) = true
    ∧ _encode (.dictII [(1, 0), (2, 0)]) ≠ _encode (.dictII [(2, 0), (1, 0)]) := by
  refine ⟨rfl, by decide⟩

theorem recordLoop_ok {E : Type} (f : PyVal → Except E PyVal) (path : String) :
    ∀ (items : List PyVal) (p : List Marker) (n ck : Nat) (fs : FS),
      (∀ x ∈ items, okB (f x) = true) →
      (recordLoop f path items p n ck fs).err = none ∧
      (recordLoop f path items p n ck fs).progress = p ++ items.map _encode ∧
      (recordLoop f path items p n ck fs).calls = items.length := by
  intro items
  induction items with
  | nil => intro p n ck fs _; simp [recordLoop]
  | cons x rest ih =>
      intro p n ck fs hok
      have hx : okB (f x) = true := hok x (List.mem_cons_self x rest)
      have hrest : ∀ y ∈ rest, okB (f y) = true :=
        fun y hy => hok y (List.mem_cons_of_mem x hy)
      cases hfx : f x with
      | error e => rw [hfx] at hx; simp [okB] at hx
      | ok r =>
          by_cases hck : n + 1 = ck
          · subst hck
            obtain ⟨i1, i2, i3⟩ := ih (p ++ [_encode x]) (n + 1) (n + 1 + (n + 1))
              (ckpt_io_write path (p ++ [_encode x]) fs) hrest
            simp [recordLoop, hfx, i1, i2, i3]
          · obtain ⟨i1, i2, i3⟩ := ih (p ++ [_encode x]) (n + 1) ck fs hrest
            simp [recordLoop, hfx, hck, i1, i2, i3]

theorem recordLoop_fail {E : Type} (f : PyVal → Except E PyVal) (path : String) :
    ∀ (items : List PyVal) (k : Nat) (bad : PyVal) (e : E)
      (p : List Marker) (n ck : Nat) (fs : FS),
      ((items.take k).all (fun x => okB (f x))) = true →
      items[k]? = some bad → f bad = .error e →
      (recordLoop f path items p n ck fs).err = some e ∧
      (recordLoop f path items p n ck fs).progress
        = p ++ (items.take k).map _encode := by
  intro items
  induction items with
  | nil => intro k bad e p n ck fs _ hk _; simp at hk
  | cons x rest ih =>
      intro k bad e p n ck fs hall hk hbad
      cases k with
      | zero =>
          obtain rfl : x = bad := by simpa using hk
          simp [recordLoop, hbad]
      | succ k' =>
          rw [List.take_succ_cons, List.all_cons, Bool.and_eq_true] at hall
          obtain ⟨hx, hall'⟩ := hall
          have hk' : rest[k']? = some bad := by simpa using hk
          cases hfx : f x with
          | error e' => rw [hfx] at hx; simp [okB] at hx
          | ok r =>
              by_cases hck : n + 1 = ck
              · subst hck
                obtain ⟨i1, i2⟩ := ih k' bad e (p ++ [_encode x]) (n + 1)
                  (n + 1 + (n + 1)) (ckpt_io_write path (p ++ [_encode x]) fs)
                  hall' hk' hbad
                simp [recordLoop, hfx, i1, i2, List.take_succ_cons]
              · obtain ⟨i1, i2⟩ := ih k' bad e (p ++ [_encode x]) (n + 1)
                  ck fs hall' hk' hbad
                simp [recordLoop, hfx, hck, i1, i2, List.take_succ_cons]

theorem recordLoop_chain {E : Type} (f : PyVal → Except E PyVal) (path : String) :
    ∀ (items : List PyVal) (p : List Marker) (n ck : Nat) (fs : FS),
      List.Chain' (· <+: ·)
        (p :: ((recordLoop f path items p n ck fs).writes ++
          [(recordLoop f path items p n ck fs).progress])) := by
  intro items
  induction items with
  | nil =>
      intro p n ck fs
      simp only [recordLoop, List.nil_append]
      exact List.chain'_pair.mpr List.prefix_rfl
  | cons x rest ih =>
      intro p n ck fs
      cases hfx : f x with
      | error e =>
          simp only [recordLoop, hfx, List.nil_append]
          exact List.chain'_pair.mpr List.prefix_rfl
      | ok r =>
          by_cases hck : n + 1 = ck
          · have h := ih (p ++ [_encode x]) (n + 1) (ck + ck)
              (ckpt_io_write path (p ++ [_encode x]) fs)
            simp only [recordLoop, hfx]
            rw [if_pos hck]
            dsimp only
            rw [List.cons_append, List.chain'_cons]
            exact ⟨List.prefix_append p [_encode x], h⟩
          · have h := ih (p ++ [_encode x]) (n + 1) ck fs
            simp only [recordLoop, hfx]
            rw [if_neg hck]
            dsimp only
            rw [List.chain'_cons'] at h ⊢
            exact ⟨fun y hy =>
              (List.prefix_append p [_encode x]).trans (h.1 y hy), h.2⟩

/-- C10.  Monotone snapshots: during a single `record` call the in-memory
progress list is only appended to, so among the checkpoint snapshots the
call writes (the final unconditional one included), every earlier snapshot
is a prefix of every later one. -/
theorem record_writes_monotone {E : Type} (c : Checkpoint) (fs : FS)
    (now : Nat) (f : PyVal → Except E PyVal) (F : Nat) :
    List.Pairwise (· <+: ·) (record c fs now f F).writes := by
  have htrans : ∀ l : List (List Marker), List.Chain' (· <+: ·) l →
      List.Pairwise (· <+: ·) l := fun l h => List.chain'_iff_pairwise.mp h
  cases hcp : check_progress c fs now with
  | error e => simp [record, hcp]
  | ok plan =>
      by_cases hemp : plan.workSet = []
      · simp [record, hcp, hemp]
      · have hch := recordLoop_chain f plan.path plan.workSet
          plan.c.progress 0 F plan.fs
        have hpw := (htrans _ hch).of_cons
        cases herr : (recordLoop f plan.path plan.workSet plan.c.progress 0
            F plan.fs).err with
        | some e =>
            simp only [record, hcp]
            rw [if_neg hemp]
            simp only [herr]
            exact hpw.sublist (List.sublist_append_left _ _)
        | none =>
            simp only [record, hcp]
            rw [if_neg hemp]
            simp only [herr]
            exact hpw

theorem geoCounts_le (ck M : Nat) : ∀ t ∈ geoCounts ck M, ck ≤ t := by
  rw [geoCounts]
  split
  · intro t ht
    rcases List.mem_cons.mp ht with rfl | ht'
    · exact le_refl t
    · have := geoCounts_le (ck + ck) M t ht'
      omega
  · intro t ht
    simp at ht
termination_by M + 1 - ck
decreasing_by omega

theorem geoCounts_eq_nil (ck M : Nat) (h : M < ck) : geoCounts ck M = [] := by
  rw [geoCounts]
  rw [dif_neg (by omega)]

theorem geoCounts_eq_cons (ck M : Nat) (h1 : 1 ≤ ck) (h2 : ck ≤ M) :
    geoCounts ck M = ck :: geoCounts (ck + ck) M := by
  rw [geoCounts]
  rw [dif_pos ⟨h1, h2⟩]

theorem recordLoop_writes_lengths {E : Type} (f : PyVal → Except E PyVal)
    (path : String) :
    ∀ (items : List PyVal) (p : List Marker) (n ck : Nat) (fs : FS),
      (∀ x ∈ items, okB (f x) = true) → n < ck →
      (recordLoop f path items p n ck fs).writes.map List.length
        = (geoCounts ck (n + items.length)).map
            (fun t => p.length + t - n) := by
  intro items
  induction items with
  | nil =>
      intro p n ck fs _ hlt
      simp only [recordLoop, List.map_nil, List.length_nil, Nat.add_zero]
      rw [geoCounts_eq_nil ck n hlt, List.map_nil]
  | cons x rest ih =>
      intro p n ck fs hok hlt
      have hx : okB (f x) = true := hok x (List.mem_cons_self x rest)
      have hrest : ∀ y ∈ rest, okB (f y) = true :=
        fun y hy => hok y (List.mem_cons_of_mem x hy)
      cases hfx : f x with
      | error e => rw [hfx] at hx; simp [okB] at hx
      | ok r =>
          by_cases hck : n + 1 = ck
          · have hihm := ih (p ++ [_encode x]) (n + 1) (ck + ck)
              (ckpt_io_write path (p ++ [_encode x]) fs) hrest (by omega)
            simp only [recordLoop, hfx]
            rw [if_pos hck]
            dsimp only
            simp only [List.length_cons]
            rw [List.map_cons, hihm]
            rw [geoCounts_eq_cons ck (n + (List.length rest + 1)) (by omega)
              (by omega), List.map_cons]
            have hM : n + 1 + List.length rest
                = n + (List.length rest + 1) := by omega
            rw [hM]
            refine congrArg₂ List.cons (by simp; omega) ?_
            refine List.map_congr_left (fun t ht => ?_)
            have := geoCounts_le (ck + ck) (n + (List.length rest + 1)) t ht
            simp only [List.length_append, List.length_cons, List.length_nil]
            omega
          · have hihm := ih (p ++ [_encode x]) (n + 1) ck fs hrest (by omega)
            simp only [recordLoop, hfx]
            rw [if_neg hck]
            dsimp only
            simp only [List.length_cons]
            rw [hihm]
            have hM : n + 1 + List.length rest
                = n + (List.length rest + 1) := by omega
            rw [hM]
            refine List.map_congr_left (fun t ht => ?_)
            have := geoCounts_le ck (n + (List.length rest + 1)) t ht
            simp only [List.length_append, List.length_cons, List.length_nil]
            omega

theorem filter_progress_nil (input : List PyVal) :
    input.filter (fun x => !((([] : List Marker)).contains (_encode x)))
      = input :=
  List.filter_eq_self.mpr (fun _ _ => rfl)

/-- C5 (amended).  Flush cadence: in an error-free run started with no prior
checkpoint and `flushInterval = F ≥ 1`, the periodic flushes write snapshots
at the cumulative completion counts `F, 2F, 4F, …` measured from run start
(so the first fires after exactly `F` completed items, the second after `F`
more, the third after `2F` more), and a final unconditional flush of all
items always follows the last item regardless of cadence alignment. -/
theorem flush_cadence_geometric_cumulative {E : Type}
    (f : PyVal → Except E PyVal) (input : List PyVal) (fs : FS) (now F : Nat)
    (hF : 1 ≤ F) (hok : ∀ x ∈ input, okB (f x) = true) (hne : input ≠ []) :
    (record ⟨input, none, []⟩ fs now f F).writes.map List.length
      = geoCounts F input.length ++ [input.length] := by
  have hws : (check_progress ⟨input, none, []⟩ fs now)
      = .ok ⟨input, 0, toString now ++ ".ckpt",
          ⟨input, some (toString now ++ ".ckpt"), []⟩,
          fsWrite fs (toString now ++ ".ckpt") []⟩ := by
    simp only [check_progress]
    rw [filter_progress_nil]
  obtain ⟨herr, hprog, _⟩ := recordLoop_ok f (toString now ++ ".ckpt")
    input [] 0 F (fsWrite fs (toString now ++ ".ckpt") []) hok
  simp only [record, hws]
  rw [if_neg hne]
  simp only [herr]
  rw [List.map_append, recordLoop_writes_lengths f _ input [] 0 F _ hok
    (by omega), hprog]
  simp

/-- Closed witness for the amended flush-cadence theorem at `F = 2` over
three items. -/
theorem flush_cadence_geometric_cumulative_witness :
    (1 ≤ 2 ∧ (∀ x ∈ [PyVal.int 1, .int 2, .int 3], okB (cbOk x) = true)
      ∧ ([PyVal.int 1, .int 2, .int 3] : List PyVal) ≠ [])
    ∧ (record ⟨[PyVal.int 1, .int 2, .int 3], none, []⟩ [] 0 cbOk 2).writes.map
        List.length = geoCounts 2 3 ++ [3] := by
  refine ⟨⟨by decide, by decide, by decide⟩, ?_⟩
  exact flush_cadence_geometric_cumulative cbOk
    [PyVal.int 1, .int 2, .int 3] [] 0 2 (by decide) (by decide) (by decide)

theorem check_progress_fresh (input : List PyVal) (fs : FS) (now : Nat) :
    check_progress ⟨input, none, []⟩ fs now
      = .ok ⟨input, 0, toString now ++ ".ckpt",
          ⟨input, some (toString now ++ ".ckpt"), []⟩,
          fsWrite fs (toString now ++ ".ckpt") []⟩ := by
  simp only [check_progress]
  rw [filter_progress_nil]

/-- C3.  Callback failure semantics: if the callback succeeds on the first
`k` items of the work set and raises on the `k`-th (0-based), the error is
not caught — it propagates out of `record` as a callback error — and at that
moment the in-memory done-list holds exactly the markers of the items
processed strictly before the failing one; the failing item's marker is
never appended, markers being appended only after each callback returns. -/
theorem record_callback_error_propagates {E : Type}
    (f : PyVal → Except E PyVal) (input : List PyVal) (fs : FS) (now F : Nat)
    (k : Nat) (bad : PyVal) (e : E)
    (hall : ((input.take k).all (fun x => okB (f x))) = true)
    (hk : input[k]? = some bad) (hbad : f bad = .error e) :
    (record ⟨input, none, []⟩ fs now f F).err = some (.cb e)
    ∧ (record ⟨input, none, []⟩ fs now f F).c.progress
        = (input.take k).map _encode := by
  have hne : input ≠ [] := by
    intro h
    rw [h] at hk
    simp at hk
  obtain ⟨i1, i2⟩ := recordLoop_fail f (toString now ++ ".ckpt") input k bad e
    [] 0 F (fsWrite fs (toString now ++ ".ckpt") []) hall hk hbad
  simp only [record, check_progress_fresh]
  rw [if_neg hne]
  simp [i1, i2]

/-- Closed witness for the callback-failure theorem: the callback raises on
item `2`, the second of three items. -/
theorem record_callback_error_propagates_witness :
    ((([PyVal.int 1, .int 2, .int 3].take 1).all
        (fun x => okB (cbFailOn2 x))) = true
      ∧ ([PyVal.int 1, .int 2, .int 3] : List PyVal)[1]? = some (.int 2)
      ∧ cbFailOn2 (.int 2) = .error ())
    ∧ (record ⟨[PyVal.int 1, .int 2, .int 3], none, []⟩ [] 0
        cbFailOn2 100).err = some (.cb ())
    ∧ (record ⟨[PyVal.int 1, .int 2, .int 3], none, []⟩ [] 0
        cbFailOn2 100).c.progress
        = ([PyVal.int 1, .int 2, .int 3].take 1).map _encode := by
  refine ⟨⟨by decide, by decide, rfl⟩, ?_, ?_⟩
  · exact (record_callback_error_propagates cbFailOn2
      [PyVal.int 1, .int 2, .int 3] [] 0 100 1 (.int 2) ()
      (by decide) (by decide) rfl).1
  · exact (record_callback_error_propagates cbFailOn2
      [PyVal.int 1, .int 2, .int 3] [] 0 100 1 (.int 2) ()
      (by decide) (by decide) rfl).2

/-- C9.  Duplicates are each processed: with no checkpoint path the planning
step returns the whole input — duplicate occurrences included — as the work
set, and an error-free `record` run invokes the callback once per input
position; the exclusion set is fixed before the loop starts, so markers
appended during the run never filter later items of the same run. -/
theorem record_processes_duplicates {E : Type} (f : PyVal → Except E PyVal)
    (input : List PyVal) (fs : FS) (now F : Nat)
    (hok : ∀ x ∈ input, okB (f x) = true) :
    Except.map PlanOut.workSet (check_progress ⟨input, none, []⟩ fs now)
      = .ok input
    ∧ (record ⟨input, none, []⟩ fs now f F).calls = input.length := by
  refine ⟨by rw [check_progress_fresh]; rfl, ?_⟩
  by_cases hne : input = []
  · subst hne
    simp [record, check_progress_fresh]
  · obtain ⟨herr, _, hcalls⟩ := recordLoop_ok f (toString now ++ ".ckpt")
      input [] 0 F (fsWrite fs (toString now ++ ".ckpt") []) hok
    simp only [record, check_progress_fresh]
    rw [if_neg hne]
    simp only [herr, hcalls]

/-- Closed witness for the duplicate-processing theorem: the input holds the
same item twice and the callback runs twice. -/
theorem record_processes_duplicates_witness :
    (∀ x ∈ [PyVal.int 1, .int 1], okB (cbOk x) = true)
    ∧ Except.map PlanOut.workSet
        (check_progress ⟨[PyVal.int 1, .int 1], none, []⟩ [] 0)
      = .ok [PyVal.int 1, .int 1]
    ∧ (record ⟨[PyVal.int 1, .int 1], none, []⟩ [] 0 cbOk 100).calls = 2 := by
  refine ⟨by decide, ?_, ?_⟩
  · exact (record_processes_duplicates cbOk [PyVal.int 1, .int 1] [] 0 100
      (by decide)).1
  · exact (record_processes_duplicates cbOk [PyVal.int 1, .int 1] [] 0 100
      (by decide)).2

theorem check_progress_fileNotFound (c : Checkpoint) (fs : FS) (now : Nat) :
    check_progress c fs now = .error .fileNotFound
      ↔ ∃ p, c.ckpt_file = some p ∧ fsLookup fs p = none := by
  cases hcf : c.ckpt_file with
  | none =>
      constructor
      · intro h
        simp [check_progress, hcf] at h
      · rintro ⟨p, hp, _⟩
        cases hp
  | some p =>
      cases hlk : fsLookup fs p with
      | none =>
          constructor
          · intro _
            exact ⟨p, rfl, hlk⟩
          · intro _
            simp [check_progress, hcf, hlk]
      | some raw =>
          constructor
          · intro h
            simp only [check_progress, hcf, hlk] at h
            cases hgz : gzipDecompress raw with
            | none => simp [hgz] at h
            | some payload =>
                cases hds : deserializeMarkers payload with
                | none => simp [hgz, hds] at h
                | some data => simp [hgz, hds] at h
          · rintro ⟨p', hp', hlk'⟩
            cases hp'
            rw [hlk] at hlk'
            cases hlk'

/-- C8.  Missing-checkpoint usage error: `record` propagates the
file-not-found configuration error exactly when a checkpoint path is set but
no file exists at it (an existing file or an unset path never triggers it),
and in that case no callback is invoked, nothing is written, and nothing is
returned. -/
theorem record_missing_checkpoint_error {E : Type} (c : Checkpoint) (fs : FS)
    (now : Nat) (f : PyVal → Except E PyVal) (F : Nat) :
    ((record c fs now f F).err = some (.ckpt .fileNotFound)
      ↔ ∃ p, c.ckpt_file = some p ∧ fsLookup fs p = none)
    ∧ ((∃ p, c.ckpt_file = some p ∧ fsLookup fs p = none) →
        (record c fs now f F).calls = 0
        ∧ (record c fs now f F).writes = []
        ∧ (record c fs now f F).ret = none) := by
  constructor
  · constructor
    · intro h
      rw [← check_progress_fileNotFound c fs now]
      cases hcp : check_progress c fs now with
      | error e =>
          cases e with
          | fileNotFound => rfl
          | corrupt => simp [record, hcp] at h
      | ok plan =>
          exfalso
          by_cases hemp : plan.workSet = []
          · simp [record, hcp, hemp] at h
          · simp only [record, hcp] at h
            rw [if_neg hemp] at h
            cases herr : (recordLoop f plan.path plan.workSet
                plan.c.progress 0 F plan.fs).err with
            | some e => simp [herr] at h
            | none => simp [herr] at h
    · intro hex
      have hcp := (check_progress_fileNotFound c fs now).mpr hex
      simp [record, hcp]
  · intro hex
    have hcp := (check_progress_fileNotFound c fs now).mpr hex
    simp [record, hcp]

/-- Closed witness for the missing-checkpoint theorem: a set path over an
empty filesystem. -/
theorem record_missing_checkpoint_error_witness :
    (∃ p, (Checkpoint.mk [PyVal.int 1] (some "p") []).ckpt_file = some p
      ∧ fsLookup [] p = none)
    ∧ (record ⟨[PyVal.int 1], some "p", []⟩ [] 0 cbOk 100).calls = 0
    ∧ (record ⟨[PyVal.int 1], some "p", []⟩ [] 0 cbOk 100).writes = []
    ∧ (record ⟨[PyVal.int 1], some "p", []⟩ [] 0 cbOk 100).ret = none :=
  ⟨⟨"p", rfl, rfl⟩,
    (record_missing_checkpoint_error ⟨[PyVal.int 1], some "p", []⟩ [] 0
      cbOk 100).2 ⟨"p", rfl, rfl⟩⟩

mutual

theorem pyEq_canonical_eq : (a b : PyVal) → canonical a = true →
    canonical b = true → pyEq a b = true → a = b
  | .int _, .int _, _, _, h => by
      simp only [pyEq, beq_iff_eq] at h
      rw [h]
  | .str _, .str _, _, _, h => by
      simp only [pyEq, beq_iff_eq] at h
      rw [h]
  | .bytes _, .bytes _, _, _, h => by
      simp only [pyEq, beq_iff_eq] at h
      rw [h]
  | .list xs, .list ys, ha, hb, h => by
      simp only [canonical] at ha hb
      simp only [pyEq] at h
      rw [pyEqList_canonical_eq xs ys ha hb h]
  | .bool _, _, ha, _, _ => by simp [canonical] at ha
  | .dictII _, _, ha, _, _ => by simp [canonical] at ha
  | .int _, .bool _, _, hb, _ => by simp [canonical] at hb
  | .int _, .dictII _, _, hb, _ => by simp [canonical] at hb
  | .str _, .bool _, _, hb, _ => by simp [canonical] at hb
  | .str _, .dictII _, _, hb, _ => by simp [canonical] at hb
  | .bytes _, .bool _, _, hb, _ => by simp [canonical] at hb
  | .bytes _, .dictII _, _, hb, _ => by simp [canonical] at hb
  | .list _, .bool _, _, hb, _ => by simp [canonical] at hb
  | .list _, .dictII _, _, hb, _ => by simp [canonical] at hb
  | .int _, .str _, _, _, h => by simp [pyEq] at h
  | .int _, .bytes _, _, _, h => by simp [pyEq] at h
  | .int _, .list _, _, _, h => by simp [pyEq] at h
  | .str _, .int _, _, _, h => by simp [pyEq] at h
  | .str _, .bytes _, _, _, h => by simp [pyEq] at h
  | .str _, .list _, _, _, h => by simp [pyEq] at h
  | .bytes _, .int _, _, _, h => by simp [pyEq] at h
  | .bytes _, .str _, _, _, h => by simp [pyEq] at h
  | .bytes _, .list _, _, _, h => by simp [pyEq] at h
  | .list _, .int _, _, _, h => by simp [pyEq] at h
  | .list _, .str _, _, _, h => by simp [pyEq] at h
  | .list _, .bytes _, _, _, h => by simp [pyEq] at h

theorem pyEqList_canonical_eq : (xs ys : List PyVal) →
    canonicalList xs = true → canonicalList ys = true →
    pyEqList xs ys = true → xs = ys
  | [], [], _, _, _ => rfl
  | [], _ :: _, _, _, h => by simp [pyEqList] at h
  | _ :: _, [], _, _, h => by simp [pyEqList] at h
  | x :: xs, y :: ys, ha, hb, h => by
      simp only [canonicalList, Bool.and_eq_true] at ha hb
      simp only [pyEqList, Bool.and_eq_true] at h
      rw [pyEq_canonical_eq x y ha.1 hb.1 h.1,
        pyEqList_canonical_eq xs ys ha.2 hb.2 h.2]

end

/-- C6 (amended).  Marker encoding is deterministic on the canonical
fragment: for items built from ints, strings, bytes and lists thereof,
Python structural equality `a == b` implies `encode(a) == encode(b)` (the
encoding is a pure function of the constructed value, independent of object
identity or process run).  Outside that fragment the original claim fails:
Python `==` also identifies values whose pickled representations differ —
`1 == True`, and equal dicts with different insertion orders — and those
receive different markers. -/
theorem encode_deterministic_on_canonical (a b : PyVal)
    (ha : canonical a = true) (hb : canonical b = true)
    (hab : pyEq a b = true) : _encode a = _encode b := by
  rw [pyEq_canonical_eq a b ha hb hab]

/-- Closed witness for marker determinism on the canonical fragment. -/
theorem encode_deterministic_on_canonical_witness :
    (canonical (.list [.int 5, .str "x"]) = true
      ∧ canonical (.list [.int 5, .str "x"]) = true
      ∧ pyEq (.list [.int 5, .str "x"]) (.list [.int 5, .str "x"]) = true)
    ∧ _encode (.list [.int 5, .str "x"])
        = _encode (.list [.int 5, .str "x"]) :=
  ⟨⟨rfl, rfl, rfl⟩,
    encode_deterministic_on_canonical _ _ rfl rfl rfl⟩

end Resu
